import Mathlib

/-!
Verification of the PointGroup panoptic-segmentation layer
(`torch_points3d/models/panoptic/pointgroup.py`).

The embedding models the instance-grouping and loss-orchestration layer:
the score-target construction of `_compute_loss`, the cluster assembly and
gating of `forward`, the masked offset losses of `_offset_loss`, and the
weighted combination of the four sub-losses.  Machine floats are modelled
as exact rationals (reals where a square root is required); the external
primitives (backbone, region growing, instance IoU, scorer network) enter
as parameters, exactly as the layer treats them.
-/

namespace PointGroup

/-! ### Score-target construction (`_compute_loss`, lines 119-133)

`ious` is the per-cluster maximum IoU over ground-truth instances
(`instance_iou(...).max(1)[0]`).  The code builds three boolean masks and
fills the soft target `shat` from them. -/

/-- `lower_mask = ious < self.opt.min_iou_threshold`, per element. -/
def lowerMask (minIou : ℚ) (iou : ℚ) : Bool :=
  iou < minIou

/-- `higher_mask = ious > self.opt.max_iou_threshold`, per element. -/
def higherMask (maxIou : ℚ) (iou : ℚ) : Bool :=
  iou > maxIou

/-- `middle_mask = logical_and(logical_not(lower_mask), logical_not(higher_mask))`. -/
def middleMask (minIou maxIou : ℚ) (iou : ℚ) : Bool :=
  !(lowerMask minIou iou) && !(higherMask maxIou iou)

/-- Per-cluster soft target: `shat` starts at zero, clusters in
`higher_mask` are set to `1`, clusters in `middle_mask` to
`(iou - min_iou) / (max_iou - min_iou)`.  The masks are disjoint, so the
assignment order of the source is immaterial and the value is this
per-element conditional. -/
def shat (minIou maxIou : ℚ) (iou : ℚ) : ℚ :=
  if higherMask maxIou iou then 1
  else if middleMask minIou maxIou iou then (iou - minIou) / (maxIou - minIou)
  else 0

/-- Row maximum, modelling `.max(1)[0]` for one cluster's IoU row
(the tensor call requires a nonempty row; `0` is the out-of-domain value). -/
def rowMax : List ℚ → ℚ
  | [] => 0
  | x :: xs => xs.foldl max x

/-- The list of soft score-regression targets: one target per cluster,
built from the cluster's row of the IoU matrix via `rowMax` and `shat`. -/
def scoreTargets (minIou maxIou : ℚ) (iouMatrix : List (List ℚ)) : List ℚ :=
  iouMatrix.map (fun row => shat minIou maxIou (rowMax row))

/-- C1: the soft target for cluster `i` is `shat` applied to the maximum
IoU of its row, and `shat` realises the piecewise-linear map of the spec. -/
theorem score_target_piecewise (minIou maxIou : ℚ) (iouMatrix : List (List ℚ))
    (i : ℕ) (hi : i < iouMatrix.length)
    (h0 : 0 ≤ minIou) (hlt : minIou < maxIou) (h1 : maxIou ≤ 1) :
    (scoreTargets minIou maxIou iouMatrix).getD i 0
      = shat minIou maxIou (rowMax (iouMatrix.getD i [])) ∧
    (rowMax (iouMatrix.getD i []) < minIou
      → shat minIou maxIou (rowMax (iouMatrix.getD i [])) = 0) ∧
    (rowMax (iouMatrix.getD i []) > maxIou
      → shat minIou maxIou (rowMax (iouMatrix.getD i [])) = 1) ∧
    (minIou ≤ rowMax (iouMatrix.getD i []) → rowMax (iouMatrix.getD i []) ≤ maxIou
      → shat minIou maxIou (rowMax (iouMatrix.getD i []))
          = (rowMax (iouMatrix.getD i []) - minIou) / (maxIou - minIou)) := by
  set x := rowMax (iouMatrix.getD i []) with hx
  refine ⟨?_, ?_, ?_, ?_⟩
  · simp only [scoreTargets, hx, List.getD_eq_getElem?_getD, List.getElem?_map,
      List.getElem?_eq_getElem hi]
    simp
  · intro hlow
    have hnh : ¬ (x > maxIou) := by linarith
    simp [shat, higherMask, middleMask, lowerMask, hlow, hnh]
  · intro hhigh
    simp [shat, higherMask, hhigh]
  · intro hge hle
    have hnl : ¬ (x < minIou) := not_lt.mpr hge
    have hnh : ¬ (x > maxIou) := not_lt.mpr hle
    simp [shat, higherMask, middleMask, lowerMask, hnl, hnh]

/-- C1 witness: the spec's worked example, thresholds 1/4 and 3/4 and a
single cluster whose best IoU is 1/2; its target is (1/2-1/4)/(3/4-1/4). -/
theorem score_target_piecewise_witness :
    (scoreTargets (1/4) (3/4) [[1/2]]).getD 0 0
      = shat (1/4) (3/4) (rowMax (([[(1/2 : ℚ)]]).getD 0 []))
    ∧ ((1/4 : ℚ) ≤ rowMax (([[(1/2 : ℚ)]]).getD 0 [])
        → rowMax (([[(1/2 : ℚ)]]).getD 0 []) ≤ 3/4
        → shat (1/4) (3/4) (rowMax (([[(1/2 : ℚ)]]).getD 0 []))
            = (rowMax (([[(1/2 : ℚ)]]).getD 0 []) - 1/4) / (3/4 - 1/4)) := by
  have h := score_target_piecewise (1/4) (3/4) [[1/2]] 0 (by simp)
    (by norm_num) (by norm_num) (by norm_num)
  exact ⟨h.1, h.2.2.2⟩

/-- With `minIou < maxIou`, the piecewise target equals the clamp of the
linear ramp to `[0, 1]`.  Shared shape lemma for monotonicity/continuity. -/
theorem shat_eq_clamp (a b : ℚ) (hab : a < b) :
    shat a b = fun x => min 1 (max 0 ((x - a) / (b - a))) := by
  have hb : (0 : ℚ) < b - a := sub_pos.mpr hab
  funext x
  by_cases hh : x > b
  · have h1r : (1 : ℚ) ≤ (x - a) / (b - a) := by
      rw [le_div_iff₀ hb]
      linarith
    have h0r : (0 : ℚ) ≤ (x - a) / (b - a) := le_trans zero_le_one h1r
    rw [max_eq_right h0r, min_eq_left h1r]
    simp [shat, higherMask, hh]
  · by_cases hl : x < a
    · have hr0 : (x - a) / (b - a) ≤ 0 := by
        apply div_nonpos_of_nonpos_of_nonneg <;> linarith
      rw [max_eq_left hr0, min_eq_right zero_le_one]
      simp [shat, higherMask, middleMask, lowerMask, hl, hh]
    · have h0r : (0 : ℚ) ≤ (x - a) / (b - a) := by
        apply div_nonneg <;> linarith [not_lt.mp hl]
      have hr1 : (x - a) / (b - a) ≤ 1 := by
        rw [div_le_one hb]
        linarith [not_lt.mp hh]
      rw [max_eq_right h0r, min_eq_right hr1]
      simp [shat, higherMask, middleMask, lowerMask, hl, hh]

/-- C2: with thresholds `0 ≤ minIou < maxIou ≤ 1`, the score target is
monotone non-decreasing in the IoU, continuous at both thresholds, and
takes the exact values 0 at `minIou` and 1 at `maxIou`. -/
theorem score_target_monotone_continuous (a b : ℚ)
    (h0 : 0 ≤ a) (hab : a < b) (h1 : b ≤ 1) :
    (∀ x y : ℚ, x ≤ y → shat a b x ≤ shat a b y) ∧
    ContinuousAt (shat a b) a ∧ ContinuousAt (shat a b) b ∧
    shat a b a = 0 ∧ shat a b b = 1 := by
  have hb : (0 : ℚ) < b - a := sub_pos.mpr hab
  have hclamp := shat_eq_clamp a b hab
  have hcont : Continuous (shat a b) := by
    rw [hclamp]
    have hfun : (fun x : ℚ => min 1 (max 0 ((x - a) / (b - a))))
        = fun x : ℚ => min 1 (max 0 ((x - a) * (b - a)⁻¹)) := by
      funext x
      rw [div_eq_mul_inv]
    rw [hfun]
    exact continuous_const.min
      (continuous_const.max ((continuous_id.sub continuous_const).mul continuous_const))
  refine ⟨?_, hcont.continuousAt, hcont.continuousAt, ?_, ?_⟩
  · intro x y hxy
    rw [hclamp]
    have hr : (x - a) / (b - a) ≤ (y - a) / (b - a) := by
      rw [div_le_div_iff_of_pos_right hb]
      linarith
    exact min_le_min le_rfl (max_le_max le_rfl hr)
  · have hnh : ¬ (a > b) := by linarith
    simp [shat, higherMask, middleMask, lowerMask, hnh]
  · have hnh : ¬ (b > b) := lt_irrefl b
    have hnl : ¬ (b < a) := by linarith
    simp [shat, higherMask, middleMask, lowerMask, hnh, hnl,
      div_self (ne_of_gt hb)]

/-- C2 witness: at thresholds 1/4 and 3/4 the target is 0 at 1/4, 1 at
3/4, ordered between 1/3 and 1/2, and continuous at both thresholds. -/
theorem score_target_monotone_continuous_witness :
    shat (1/4) (3/4) (1/4) = 0 ∧ shat (1/4) (3/4) (3/4) = 1 ∧
    shat (1/4) (3/4) (1/3) ≤ shat (1/4) (3/4) (1/2) ∧
    ContinuousAt (shat (1/4) (3/4)) (1/4) ∧
    ContinuousAt (shat (1/4) (3/4)) (3/4) := by
  have h := score_target_monotone_continuous (1/4) (3/4)
    (by norm_num) (by norm_num) (by norm_num)
  exact ⟨h.2.2.2.1, h.2.2.2.2, h.1 _ _ (by norm_num), h.2.1, h.2.2.1⟩

/-! ### IoU-bucket partition (`_compute_loss`, lines 123-126)

The source asserts `torch.sum(lower_mask + higher_mask + middle_mask) ==
ious.shape[0]`; on boolean tensors `+` is an elementwise disjunction and
`torch.sum` counts the true entries. -/

/-- For one IoU value, exactly one of the three bucket masks is set
(counted as a natural number). -/
theorem bucket_masks_exclusive (a b iou : ℚ) (hab : a < b) :
    ((if lowerMask a iou then 1 else 0)
      + (if higherMask b iou then 1 else 0)
      + (if middleMask a b iou then 1 else 0) : ℕ) = 1 := by
  by_cases hl : iou < a
  · have hh : ¬ (iou > b) := by linarith
    simp [lowerMask, higherMask, middleMask, hl, hh]
  · by_cases hh : iou > b
    · simp [lowerMask, higherMask, middleMask, hl, hh]
    · simp [lowerMask, higherMask, middleMask, hl, hh]

/-- C3: with `min_iou_threshold < max_iou_threshold`, the three masks are
pairwise disjoint and jointly exhaustive on every IoU value, the three
bucket counts sum to the number of clusters, and the count of the
elementwise disjunction (the value of the source's assertion) equals the
number of clusters, so the assertion passes. -/
theorem bucket_partition (a b : ℚ) (ious : List ℚ) (hab : a < b) :
    (∀ iou : ℚ,
      ¬(lowerMask a iou = true ∧ higherMask b iou = true) ∧
      ¬(lowerMask a iou = true ∧ middleMask a b iou = true) ∧
      ¬(higherMask b iou = true ∧ middleMask a b iou = true)) ∧
    (∀ iou : ℚ,
      lowerMask a iou = true ∨ higherMask b iou = true ∨ middleMask a b iou = true) ∧
    ious.countP (fun iou => lowerMask a iou)
      + ious.countP (fun iou => higherMask b iou)
      + ious.countP (fun iou => middleMask a b iou) = ious.length ∧
    ious.countP (fun iou => lowerMask a iou || higherMask b iou || middleMask a b iou)
      = ious.length := by
  refine ⟨?_, ?_, ?_, ?_⟩
  · intro iou
    refine ⟨?_, ?_, ?_⟩
    · rintro ⟨hl, hh⟩
      simp only [lowerMask, higherMask, decide_eq_true_eq] at hl hh
      linarith
    · rintro ⟨hl, hm⟩
      simp [lowerMask, higherMask, middleMask, hl] at hm hl
      linarith
    · rintro ⟨hh, hm⟩
      simp [lowerMask, higherMask, middleMask, hh] at hm hh
      linarith
  · intro iou
    by_cases hl : iou < a
    · exact Or.inl (by simp [lowerMask, hl])
    · by_cases hh : iou > b
      · exact Or.inr (Or.inl (by simp [higherMask, hh]))
      · exact Or.inr (Or.inr (by simp [lowerMask, higherMask, middleMask, hl, hh]))
  · induction ious with
    | nil => simp
    | cons x xs ih =>
      simp only [List.countP_cons, List.length_cons]
      have hx := bucket_masks_exclusive a b x hab
      omega
  · induction ious with
    | nil => simp
    | cons x xs ih =>
      simp only [List.countP_cons, List.length_cons]
      have hx := bucket_masks_exclusive a b x hab
      by_cases hl : lowerMask a x <;> by_cases hh : higherMask b x <;>
        by_cases hm : middleMask a b x <;> simp_all

/-- C3 witness: thresholds 1/4 and 3/4 on the IoU list
`[0, 1/4, 1/2, 3/4, 1]`: the bucket counts sum to 5 and the asserted
count equals 5. -/
theorem bucket_partition_witness :
    ([0, 1/4, 1/2, 3/4, 1] : List ℚ).countP (fun iou => lowerMask (1/4) iou)
      + ([0, 1/4, 1/2, 3/4, 1] : List ℚ).countP (fun iou => higherMask (3/4) iou)
      + ([0, 1/4, 1/2, 3/4, 1] : List ℚ).countP (fun iou => middleMask (1/4) (3/4) iou)
      = ([0, 1/4, 1/2, 3/4, 1] : List ℚ).length ∧
    ([0, 1/4, 1/2, 3/4, 1] : List ℚ).countP
        (fun iou => lowerMask (1/4) iou || higherMask (3/4) iou || middleMask (1/4) (3/4) iou)
      = ([0, 1/4, 1/2, 3/4, 1] : List ℚ).length := by
  have h := bucket_partition (1/4) (3/4) [0, 1/4, 1/2, 3/4, 1] (by norm_num)
  exact ⟨h.2.2.1, h.2.2.2⟩

/-! ### Cluster assembly and gating (`forward`, lines 57-104)

A cluster is a list of point indices (one `region_grow` output tensor).
The two `region_grow` calls and the scorer network are external
primitives, so they enter as parameters: `clustersPos` and `clustersVotes`
are their results, `scorer` the composite `ScorerHead ∘ Scorer ∘ batch`. -/

/-- A candidate cluster: the point indices of one region. -/
abbrev Cluster := List ℕ

/-- Outputs of one forward pass that the loss computation inspects:
`clusters` models `all_clusters` (initialised to `None`), and
`cluster_scores` models `cluster_scores` (initialised to `None`). -/
structure ForwardOut where
  clusters : Option (List Cluster)
  cluster_scores : Option (List ℚ)
  deriving Repr, DecidableEq

/-- The gate `epoch == -1 or epoch > self.opt.prepare_epoch`
("Active by default"). -/
def clusteringActive (epoch prepareEpoch : ℤ) : Bool :=
  epoch == -1 || epoch > prepareEpoch

/-- The grouping-and-scoring part of `forward`: when the gate is open,
`all_clusters = clusters_pos + clusters_votes`, and the scorer runs only
under `if len(all_clusters):`; otherwise both fields stay `None`. -/
def forwardClusters (epoch prepareEpoch : ℤ)
    (clustersPos clustersVotes : List Cluster)
    (scorer : List Cluster → List ℚ) : ForwardOut :=
  if clusteringActive epoch prepareEpoch then
    let allClusters := clustersPos ++ clustersVotes
    if allClusters.length ≠ 0 then
      { clusters := some allClusters, cluster_scores := some (scorer allClusters) }
    else
      { clusters := some allClusters, cluster_scores := none }
  else
    { clusters := none, cluster_scores := none }

/-! ### Loss assembly (`_compute_loss`, lines 108-138)

The four sub-loss scalars (`nll_loss`, `binary_cross_entropy`, and the two
offset losses) are combined with the configured weights.  The sub-loss
values enter as parameters; the score term is added only when
`cluster_scores is not None`. -/

/-- The configured `loss_weights` mapping; field names follow the keys the
source reads (`semantic`, `score_loss`, `offset_norm_loss`,
`offset_dir_loss`). -/
structure LossWeights where
  semantic : ℚ
  score_loss : ℚ
  offset_norm_loss : ℚ
  offset_dir_loss : ℚ
  deriving Repr, DecidableEq

/-- `_compute_loss`'s accumulation of `self.loss`: start from the weighted
semantic loss, add the weighted score loss when scores exist, then add the
two weighted offset losses. -/
def computeLoss (w : LossWeights) (semanticLoss : ℚ) (scoreLoss : Option ℚ)
    (offsetNormLoss offsetDirLoss : ℚ) : ℚ :=
  let loss := w.semantic * semanticLoss
  let loss := match scoreLoss with
    | some s => loss + s * w.score_loss
    | none => loss
  let loss := loss + w.offset_norm_loss * offsetNormLoss
  loss + w.offset_dir_loss * offsetDirLoss

/-- The pass-level total loss: the score sub-loss is computed (by
`scoreLossOf`, modelling the binary cross entropy against the targets)
exactly when the forward pass produced cluster scores. -/
def passLoss (w : LossWeights) (epoch prepareEpoch : ℤ)
    (clustersPos clustersVotes : List Cluster) (scorer : List Cluster → List ℚ)
    (semanticLoss : ℚ) (scoreLossOf : List ℚ → ℚ)
    (offsetNormLoss offsetDirLoss : ℚ) : ℚ :=
  computeLoss w semanticLoss
    ((forwardClusters epoch prepareEpoch clustersPos clustersVotes scorer).cluster_scores.map
      scoreLossOf)
    offsetNormLoss offsetDirLoss

/-- C4: when the gate is open, the candidate cluster list is exactly the
concatenation of the raw-position clusters followed by the offset-corrected
clusters, and its length is the sum of the two lengths. -/
theorem clusters_concat (epoch prepareEpoch : ℤ)
    (clustersPos clustersVotes : List Cluster) (scorer : List Cluster → List ℚ)
    (hact : clusteringActive epoch prepareEpoch = true) :
    (forwardClusters epoch prepareEpoch clustersPos clustersVotes scorer).clusters
      = some (clustersPos ++ clustersVotes) ∧
    (clustersPos ++ clustersVotes).length = clustersPos.length + clustersVotes.length := by
  refine ⟨?_, List.length_append _ _⟩
  simp only [forwardClusters, hact, if_true]
  split <;> rfl

/-- C4 witness: one raw-position cluster and one offset cluster
concatenate to a list of length 2 (the spec's end-to-end example). -/
theorem clusters_concat_witness :
    (forwardClusters (-1) 0 [[0, 1, 2, 3, 4, 5]] [[4, 5, 6, 7, 8]]
        (fun cs => cs.map (fun _ => 1/2))).clusters
      = some ([[0, 1, 2, 3, 4, 5]] ++ [[4, 5, 6, 7, 8]]) ∧
    (([[0, 1, 2, 3, 4, 5]] : List Cluster) ++ [[4, 5, 6, 7, 8]]).length
      = ([[0, 1, 2, 3, 4, 5]] : List Cluster).length
        + ([[4, 5, 6, 7, 8]] : List Cluster).length :=
  clusters_concat (-1) 0 [[0, 1, 2, 3, 4, 5]] [[4, 5, 6, 7, 8]]
    (fun cs => cs.map (fun _ => 1/2)) (by decide)

/-- C5: when the gate is closed the cluster list and the scores stay
`None`, the total loss is exactly the three weighted non-score terms, and
the default epoch `-1` (evaluation mode) always opens the gate. -/
theorem inactive_gate_no_score (w : LossWeights) (epoch prepareEpoch : ℤ)
    (clustersPos clustersVotes : List Cluster) (scorer : List Cluster → List ℚ)
    (semanticLoss : ℚ) (scoreLossOf : List ℚ → ℚ) (normLoss dirLoss : ℚ)
    (hinact : clusteringActive epoch prepareEpoch = false) :
    (forwardClusters epoch prepareEpoch clustersPos clustersVotes scorer).clusters = none ∧
    (forwardClusters epoch prepareEpoch clustersPos clustersVotes scorer).cluster_scores
      = none ∧
    passLoss w epoch prepareEpoch clustersPos clustersVotes scorer semanticLoss
        scoreLossOf normLoss dirLoss
      = w.semantic * semanticLoss + w.offset_norm_loss * normLoss
        + w.offset_dir_loss * dirLoss ∧
    (∀ q : ℤ, clusteringActive (-1) q = true) := by
  refine ⟨?_, ?_, ?_, ?_⟩
  · simp [forwardClusters, hinact]
  · simp [forwardClusters, hinact]
  · simp [passLoss, forwardClusters, hinact, computeLoss]
  · intro q
    simp [clusteringActive]

/-- C5 witness: at epoch 2 with `prepare_epoch = 5` the gate is closed, no
clusters or scores are produced, and the total loss carries no score
term. -/
theorem inactive_gate_no_score_witness :
    (forwardClusters 2 5 [[0, 1]] [[2]] (fun cs => cs.map (fun _ => 1/2))).clusters
      = none ∧
    (forwardClusters 2 5 [[0, 1]] [[2]]
        (fun cs => cs.map (fun _ => 1/2))).cluster_scores = none ∧
    passLoss ⟨1, 1, 1, 1⟩ 2 5 [[0, 1]] [[2]] (fun cs => cs.map (fun _ => 1/2))
        (3 : ℚ) (fun _ => 100) (5 : ℚ) (7 : ℚ)
      = (⟨1, 1, 1, 1⟩ : LossWeights).semantic * 3
        + (⟨1, 1, 1, 1⟩ : LossWeights).offset_norm_loss * 5
        + (⟨1, 1, 1, 1⟩ : LossWeights).offset_dir_loss * 7 ∧
    (∀ q : ℤ, clusteringActive (-1) q = true) :=
  inactive_gate_no_score ⟨1, 1, 1, 1⟩ 2 5 [[0, 1]] [[2]]
    (fun cs => cs.map (fun _ => 1/2)) 3 (fun _ => 100) 5 7 (by decide)

/-- C6: when the gate is open but both region-growing calls return zero
regions, the cluster list is empty (`some []`), scoring is skipped
(`cluster_scores = None`), and the total loss omits the score term. -/
theorem empty_clusters_skip_scoring (w : LossWeights) (epoch prepareEpoch : ℤ)
    (clustersPos clustersVotes : List Cluster) (scorer : List Cluster → List ℚ)
    (semanticLoss : ℚ) (scoreLossOf : List ℚ → ℚ) (normLoss dirLoss : ℚ)
    (hact : clusteringActive epoch prepareEpoch = true)
    (hpos : clustersPos = []) (hvotes : clustersVotes = []) :
    (forwardClusters epoch prepareEpoch clustersPos clustersVotes scorer).clusters
      = some [] ∧
    (forwardClusters epoch prepareEpoch clustersPos clustersVotes scorer).cluster_scores
      = none ∧
    passLoss w epoch prepareEpoch clustersPos clustersVotes scorer semanticLoss
        scoreLossOf normLoss dirLoss
      = w.semantic * semanticLoss + w.offset_norm_loss * normLoss
        + w.offset_dir_loss * dirLoss := by
  subst hpos hvotes
  refine ⟨?_, ?_, ?_⟩
  · simp [forwardClusters, hact]
  · simp [forwardClusters, hact]
  · simp [passLoss, forwardClusters, hact, computeLoss]

/-- C6 witness: gate open at the default epoch, both cluster sets empty:
clusters are `some []`, scores absent, loss has no score term. -/
theorem empty_clusters_skip_scoring_witness :
    (forwardClusters (-1) 5 [] [] (fun cs => cs.map (fun _ => 1/2))).clusters
      = some [] ∧
    (forwardClusters (-1) 5 [] [] (fun cs => cs.map (fun _ => 1/2))).cluster_scores
      = none ∧
    passLoss ⟨2, 3, 4, 5⟩ (-1) 5 [] [] (fun cs => cs.map (fun _ => 1/2))
        (3 : ℚ) (fun _ => 100) (5 : ℚ) (7 : ℚ)
      = (⟨2, 3, 4, 5⟩ : LossWeights).semantic * 3
        + (⟨2, 3, 4, 5⟩ : LossWeights).offset_norm_loss * 5
        + (⟨2, 3, 4, 5⟩ : LossWeights).offset_dir_loss * 7 :=
  empty_clusters_skip_scoring ⟨2, 3, 4, 5⟩ (-1) 5 [] [] (fun cs => cs.map (fun _ => 1/2))
    3 (fun _ => 100) 5 7 (by decide) rfl rfl

/-- C9: the total loss is the weighted sum of the four sub-losses (score
term present exactly when scores exist), and scaling one weight by `k`
changes the total by replacing only that term's contribution. -/
theorem loss_weighting (w : LossWeights) (sem norm dir sc k : ℚ) :
    computeLoss w sem (some sc) norm dir
      = w.semantic * sem + w.offset_norm_loss * norm + w.offset_dir_loss * dir
        + w.score_loss * sc ∧
    computeLoss w sem none norm dir
      = w.semantic * sem + w.offset_norm_loss * norm + w.offset_dir_loss * dir ∧
    computeLoss { w with semantic := k * w.semantic } sem (some sc) norm dir
      = computeLoss w sem (some sc) norm dir - w.semantic * sem
        + k * (w.semantic * sem) ∧
    computeLoss { w with offset_norm_loss := k * w.offset_norm_loss } sem (some sc) norm dir
      = computeLoss w sem (some sc) norm dir - w.offset_norm_loss * norm
        + k * (w.offset_norm_loss * norm) ∧
    computeLoss { w with offset_dir_loss := k * w.offset_dir_loss } sem (some sc) norm dir
      = computeLoss w sem (some sc) norm dir - w.offset_dir_loss * dir
        + k * (w.offset_dir_loss * dir) ∧
    computeLoss { w with score_loss := k * w.score_loss } sem (some sc) norm dir
      = computeLoss w sem (some sc) norm dir - w.score_loss * sc
        + k * (w.score_loss * sc) := by
  refine ⟨?_, ?_, ?_, ?_, ?_, ?_⟩ <;> simp [computeLoss] <;> ring

/-- C10 counterexample: with `prepare_epoch = -1`, the pass at
`epoch = -1` has `epoch` exactly equal to `prepare_epoch`, yet the
`epoch == -1` disjunct opens the gate, so clustering is active — refuting
"at epoch exactly equal to prepare_epoch clustering is still inactive". -/
theorem clustering_active_at_prepare_epoch_cex :
    clusteringActive (-1) (-1) = true := by decide

/-- C10 amended: clustering is active iff `epoch = -1` or
`epoch > prepare_epoch`; at `epoch = prepare_epoch` clustering is
inactive provided `epoch ≠ -1`. -/
theorem clustering_active_iff (epoch prepareEpoch : ℤ) :
    (clusteringActive epoch prepareEpoch = true ↔ (epoch = -1 ∨ epoch > prepareEpoch)) ∧
    (epoch = prepareEpoch → epoch ≠ -1 →
      clusteringActive epoch prepareEpoch = false) := by
  constructor
  · simp [clusteringActive]
  · intro heq hne
    subst heq
    simp [clusteringActive, hne]

/-- C10 witness: at epoch 3 with `prepare_epoch = 3` the gate is closed;
at epoch 4 it is open. -/
theorem clustering_active_iff_witness :
    clusteringActive 3 3 = false ∧ clusteringActive 4 3 = true :=
  ⟨(clustering_active_iff 3 3).2 rfl (by decide),
   (clustering_active_iff 4 3).1.mpr (Or.inr (by decide))⟩

/-! ### Offset losses (`_offset_loss`, lines 140-157)

Per-point 3-vectors are rational triples; boolean-mask indexing
`tensor[instance_mask, :]` is `maskedSelect`; `torch.sum(instance_mask)`
is `mask.count true`.  The direction loss needs the Euclidean norm, so it
lives in `ℝ` (the inputs stay rational). -/

/-- A per-point 3-vector. -/
abbrev Vec3 := ℚ × ℚ × ℚ

/-- `pt_dist = torch.sum(torch.abs(pt_diff), dim=-1)` for one point:
the L1 magnitude of `pt_offsets - gt_offsets`. -/
def l1Diff (v w : Vec3) : ℚ :=
  |v.1 - w.1| + |v.2.1 - w.2.1| + |v.2.2 - w.2.2|

/-- Boolean-mask indexing `xs[mask]`: keep the entries whose mask bit is
set, in order. -/
def maskedSelect {α : Type} : List Bool → List α → List α
  | b :: m, x :: xs => if b then x :: maskedSelect m xs else maskedSelect m xs
  | _, _ => []

/-- `offset_norm_loss = torch.sum(pt_dist) / (torch.sum(instance_mask) + 1e-6)`
over the mask-selected predicted and ground-truth offsets. -/
def offsetNormLoss (instanceMask : List Bool) (offsetLogits voteLabel : List Vec3) : ℚ :=
  let ptOffsets := maskedSelect instanceMask offsetLogits
  let gtOffsets := maskedSelect instanceMask voteLabel
  let ptDist := (ptOffsets.zip gtOffsets).map (fun p => l1Diff p.1 p.2)
  ptDist.sum / ((instanceMask.count true : ℚ) + 1/1000000)

/-- `torch.norm(v, p=2, dim=1)` for one 3-vector. -/
noncomputable def norm2 (v : Vec3) : ℝ :=
  Real.sqrt ((v.1 : ℝ)^2 + (v.2.1 : ℝ)^2 + (v.2.2 : ℝ)^2)

/-- `v / (torch.norm(v).unsqueeze(-1) + 1e-8)`: the epsilon-guarded unit
vector. -/
noncomputable def epsUnit (v : Vec3) : ℝ × ℝ × ℝ :=
  ((v.1 : ℝ) / (norm2 v + 1/100000000),
   (v.2.1 : ℝ) / (norm2 v + 1/100000000),
   (v.2.2 : ℝ) / (norm2 v + 1/100000000))

/-- `direction_diff = -(gt_offsets_ * pt_offsets_).sum(-1)` for one pair of
guarded unit vectors. -/
noncomputable def directionDiff (gt pt : Vec3) : ℝ :=
  -((epsUnit gt).1 * (epsUnit pt).1 + (epsUnit gt).2.1 * (epsUnit pt).2.1
    + (epsUnit gt).2.2 * (epsUnit pt).2.2)

/-- `offset_dir_loss = torch.sum(direction_diff) / (torch.sum(instance_mask) + 1e-6)`
over the mask-selected points. -/
noncomputable def offsetDirLoss (instanceMask : List Bool)
    (offsetLogits voteLabel : List Vec3) : ℝ :=
  let ptOffsets := maskedSelect instanceMask offsetLogits
  let gtOffsets := maskedSelect instanceMask voteLabel
  let diffs := (gtOffsets.zip ptOffsets).map (fun p => directionDiff p.1 p.2)
  diffs.sum / ((instanceMask.count true : ℝ) + 1/1000000)

/-- Mask-selection sees only the entries whose mask bit is set: lists that
agree there select identically. -/
theorem maskedSelect_congr {α : Type} (m : List Bool) :
    ∀ (xs ys : List α), xs.length = m.length → ys.length = m.length →
      (∀ p ∈ m.zip (xs.zip ys), p.1 = true → p.2.1 = p.2.2) →
      maskedSelect m xs = maskedSelect m ys := by
  induction m with
  | nil =>
    intro xs ys _ _ _
    rfl
  | cons b m ih =>
    intro xs ys hx hy h
    cases xs with
    | nil => simp at hx
    | cons x xs =>
      cases ys with
      | nil => simp at hy
      | cons y ys =>
        simp only [List.length_cons, Nat.succ.injEq] at hx hy
        have htail := ih xs ys hx hy (fun p hp => h p (by simp [hp]))
        cases b with
        | false => simp [maskedSelect, htail]
        | true =>
          have hhead : x = y := h (true, x, y) (by simp) rfl
          simp [maskedSelect, hhead, htail]

/-- An all-false mask selects nothing. -/
theorem maskedSelect_eq_nil {α : Type} (m : List Bool) :
    ∀ (xs : List α), (∀ b ∈ m, b = false) → maskedSelect m xs = [] := by
  induction m with
  | nil =>
    intro xs _
    rfl
  | cons b m ih =>
    intro xs h
    cases xs with
    | nil => rfl
    | cons x xs =>
      have hb : b = false := h b (by simp)
      subst hb
      simpa [maskedSelect] using ih xs (fun c hc => h c (by simp [hc]))

/-- C7: both offset losses read the predicted offsets and vote targets
only at points whose instance-membership mask is true — changing either
at mask-false points leaves both losses unchanged. -/
theorem offset_losses_only_masked (instanceMask : List Bool)
    (off₁ vote₁ off₂ vote₂ : List Vec3)
    (hl₁ : off₁.length = instanceMask.length) (hl₂ : off₂.length = instanceMask.length)
    (hl₃ : vote₁.length = instanceMask.length) (hl₄ : vote₂.length = instanceMask.length)
    (hoff : ∀ p ∈ instanceMask.zip (off₁.zip off₂), p.1 = true → p.2.1 = p.2.2)
    (hvote : ∀ p ∈ instanceMask.zip (vote₁.zip vote₂), p.1 = true → p.2.1 = p.2.2) :
    offsetNormLoss instanceMask off₁ vote₁ = offsetNormLoss instanceMask off₂ vote₂ ∧
    offsetDirLoss instanceMask off₁ vote₁ = offsetDirLoss instanceMask off₂ vote₂ := by
  have ho : maskedSelect instanceMask off₁ = maskedSelect instanceMask off₂ :=
    maskedSelect_congr instanceMask off₁ off₂ hl₁ hl₂ hoff
  have hv : maskedSelect instanceMask vote₁ = maskedSelect instanceMask vote₂ :=
    maskedSelect_congr instanceMask vote₁ vote₂ hl₃ hl₄ hvote
  constructor
  · simp only [offsetNormLoss, ho, hv]
  · simp only [offsetDirLoss, ho, hv]

/-- C7 witness: a two-point batch masked `[true, false]`; perturbing the
second (mask-false) point's predicted offset and vote target changes
neither offset loss. -/
theorem offset_losses_only_masked_witness :
    offsetNormLoss [true, false] [(1, 2, 3), (4, 5, 6)] [(1, 0, 0), (2, 2, 2)]
      = offsetNormLoss [true, false] [(1, 2, 3), (7, 8, 9)] [(1, 0, 0), (5, 5, 5)] ∧
    offsetDirLoss [true, false] [(1, 2, 3), (4, 5, 6)] [(1, 0, 0), (2, 2, 2)]
      = offsetDirLoss [true, false] [(1, 2, 3), (7, 8, 9)] [(1, 0, 0), (5, 5, 5)] :=
  offset_losses_only_masked [true, false]
    [(1, 2, 3), (4, 5, 6)] [(1, 0, 0), (2, 2, 2)]
    [(1, 2, 3), (7, 8, 9)] [(1, 0, 0), (5, 5, 5)]
    (by decide) (by decide) (by decide) (by decide) (by decide) (by decide)

/-- C8: with no mask-true point, both offset losses are the defined value
0: the empty selection sums to 0 and the epsilon keeps the denominator
nonzero. -/
theorem offset_losses_empty_mask (instanceMask : List Bool)
    (offsetLogits voteLabel : List Vec3)
    (hmask : ∀ b ∈ instanceMask, b = false) :
    offsetNormLoss instanceMask offsetLogits voteLabel = 0 ∧
    offsetDirLoss instanceMask offsetLogits voteLabel = 0 := by
  have ho := maskedSelect_eq_nil instanceMask offsetLogits hmask
  have hv := maskedSelect_eq_nil instanceMask voteLabel hmask
  constructor
  · simp [offsetNormLoss, ho, hv]
  · simp [offsetDirLoss, ho, hv]

/-- C8 witness: an all-false two-point mask yields offset-norm and
offset-direction losses exactly 0. -/
theorem offset_losses_empty_mask_witness :
    offsetNormLoss [false, false] [(1, 2, 3), (4, 5, 6)] [(1, 0, 0), (2, 2, 2)] = 0 ∧
    offsetDirLoss [false, false] [(1, 2, 3), (4, 5, 6)] [(1, 0, 0), (2, 2, 2)] = 0 :=
  offset_losses_empty_mask [false, false]
    [(1, 2, 3), (4, 5, 6)] [(1, 0, 0), (2, 2, 2)] (by decide)

end PointGroup
